import Mathlib

/-!
Verification of the orchestrator core: a shallow embedding of the task
scheduler, agent dispatcher, review & merge engine, message router and
file-backed mailbox store, with theorems settling the specification claims.

The embedding mirrors the source functions directly:
* scheduler / dispatcher: the Python block inside `dispatch_agents` and the
  surrounding bash loop (`is_task_complete`, `is_task_in_progress`,
  `are_dependencies_met`, the ready filter, the parallel-limit check);
* review & merge engine: `pm_review_completed`, `merge_approved_branches`,
  `resolve_merge_conflict`, `mark_task_complete`, `mark_task_failed`;
* message router: `process_message`, `handle_pm_message`,
  `handle_task_completion`, `try_assign_to_pool` from lib/messages.sh;
* mailbox store: `readJsonFile`, `sendMessage`, `checkResponse`,
  `waitForResponse`, `acceptAssignment` and the `ask_pm` handler from the
  messaging MCP server, plus the web-UI route helper `readJsonFile`.

Per-task on-disk state is the set of marker files in `STATUS_DIR`; mailbox
documents are JSON files.  File-system reads/writes are modelled as explicit
state passing.
-/

/-- Per-task marker files in `STATUS_DIR`: `(task).status`, `(task).completed`,
`(task).approved`, `(task).merged`, `(task).needs_human_review`,
`(task).stuck`, and the `(task).conflict_retries` counter file
(`none` = file absent, `some n` = file holding `n`). -/
structure TaskFiles where
  statusFile : Bool
  completedFile : Bool
  approvedFile : Bool
  mergedFile : Bool
  needsHumanReviewFile : Bool
  stuckFile : Bool
  conflictRetriesFile : Option Nat
deriving Repr, DecidableEq

/-- The marker state with no files on disk for a task. -/
def TaskFiles.none : TaskFiles :=
  ⟨false, false, false, false, false, false, Option.none⟩

/-- One entry of `tasks.json`: `id`, `type`, `branch`, `agent`, `description`,
`depends_on`, and the mutable `status` field written by
`mark_task_complete` / `mark_task_failed` (`""` when the field is absent). -/
structure OrchTask where
  id : String
  type : String
  branch : String
  agent : String
  description : String
  depends_on : List String
  status : String
deriving Repr, DecidableEq

/-- The whole `STATUS_DIR` marker state: marker files per task id. -/
def MarkerState := String → TaskFiles

/-- Function `is_task_complete` from the scheduler block of `dispatch_agents`:
the task counts as completed when a `.completed`, `.approved` or `.merged`
marker file exists (its docstring reads "merged or approved", but the code
also accepts the `.completed` file). -/
def is_task_complete (files : MarkerState) (taskId : String) : Bool :=
  (files taskId).completedFile || (files taskId).approvedFile ||
    (files taskId).mergedFile

/-- Function `is_task_in_progress`: a `.status` marker file exists. -/
def is_task_in_progress (files : MarkerState) (taskId : String) : Bool :=
  (files taskId).statusFile

/-- Function `are_dependencies_met`: every id in `depends_on` passes
`is_task_complete`; an empty `depends_on` is immediately met. -/
def are_dependencies_met (files : MarkerState) (task : OrchTask) : Bool :=
  task.depends_on.all (fun dep => is_task_complete files dep)

/-- The ready filter of `dispatch_agents`: not marked `completed`/`failed`
in `tasks.json`, no completion marker, not in progress, and all
dependencies met. -/
def taskReady (files : MarkerState) (task : OrchTask) : Bool :=
  !(task.status == "completed" || task.status == "failed") &&
    !(is_task_complete files task.id) &&
    !(is_task_in_progress files task.id) &&
    are_dependencies_met files task

/-- A task counted as `running` by the scheduler block: not skipped as
complete, but holding a `.status` marker. -/
def taskRunning (files : MarkerState) (task : OrchTask) : Bool :=
  !(task.status == "completed" || task.status == "failed") &&
    !(is_task_complete files task.id) &&
    is_task_in_progress files task.id

/-- The list printed by the scheduler block: the ready tasks, in task-list
order. -/
def readyTasks (tasks : List OrchTask) (files : MarkerState) : List OrchTask :=
  tasks.filter (taskReady files)

/-- The tasks counted as running by the scheduler block. -/
def runningTasks (tasks : List OrchTask) (files : MarkerState) : List OrchTask :=
  tasks.filter (taskRunning files)

/-- Marker effect of the tail of `dispatch_single_agent` when the agent
process exits: a `(task).completed` file is written (both in the
file-changes and the no-changes branch) and the `.status` file is removed.
This is raw agent completion, before any PM review. -/
def agentFinishTask (f : TaskFiles) : TaskFiles :=
  { f with completedFile := true, statusFile := false }

/-- Marker effect of the head of `dispatch_single_agent`: a `.status`
marker is written when the agent starts. -/
def agentStartTask (f : TaskFiles) : TaskFiles :=
  { f with statusFile := true }

/-- The bash dispatch loop of `dispatch_agents` over the ready-task lines.
`poolOk t` abstracts whether `try_assign_to_pool` found a standby agent for
`t`.  A line is acted on only when both the task id and the agent field are
non-empty; after each dispatch the loop stops as soon as
`task_count + assigned_to_pool` reaches `MAX_PARALLEL_AGENTS`.  Returns the
final `(task_count, assigned_to_pool)`. -/
def dispatchLoop (poolOk : OrchTask → Bool) (maxAgents : Nat) :
    List OrchTask → Nat → Nat → Nat × Nat
  | [], taskCount, assignedToPool => (taskCount, assignedToPool)
  | t :: rest, taskCount, assignedToPool =>
    if !(t.id == "") && !(t.agent == "") then
      let counts :=
        if poolOk t then (taskCount, assignedToPool + 1)
        else (taskCount + 1, assignedToPool)
      if maxAgents ≤ counts.1 + counts.2 then counts
      else dispatchLoop poolOk maxAgents rest counts.1 counts.2
    else dispatchLoop poolOk maxAgents rest taskCount assignedToPool

/-- One full dispatch cycle: ready set computed by the scheduler block, then
the bash dispatch loop starting from zero counters. -/
def dispatch_agents_counts (tasks : List OrchTask) (files : MarkerState)
    (poolOk : OrchTask → Bool) (maxAgents : Nat) : Nat × Nat :=
  dispatchLoop poolOk maxAgents (readyTasks tasks files) 0 0

/-- One standby-agent line printed by `get_standby_agents`:
`agent_id|role|comma-joined capabilities`. -/
structure PoolAgent where
  agentId : String
  role : String
  capabilities : List String
deriving Repr, DecidableEq

/-- Contiguous-sublist test on code-point lists (used to model `grep`). -/
def natsContain (hay needle : List Nat) : Bool :=
  match hay with
  | [] => needle.isEmpty
  | _ :: t => needle.isPrefixOf hay || natsContain t needle

/-- Lower-cased code point of a character: ASCII upper case is folded to
lower case, as `grep -i` does for the ASCII identifiers involved. -/
def lowerCode (c : Char) : Nat :=
  if 65 ≤ c.toNat && c.toNat ≤ 90 then c.toNat + 32 else c.toNat

/-- Case-insensitive containment: `echo "$hay" | grep -qi "$pattern"`, for a
pattern with no regex metacharacters (the dispatcher passes plain task types
such as `implement`). -/
def containsCI (hay pattern : String) : Bool :=
  natsContain (hay.toList.map lowerCode) (pattern.toList.map lowerCode)

/-- Capability match inside `try_assign_to_pool`: the preferred string is
grepped case-insensitively against the comma-joined capability list. -/
def capsMatch (capabilities : List String) (preferred : String) : Bool :=
  containsCI (String.intercalate "," capabilities) preferred

/-- The selection loop of `try_assign_to_pool`: walk the standby lines in
order, skipping empty agent ids; with a non-empty preferred capability take
the first agent whose capabilities match, otherwise take the first agent.
`best_agent` stays empty — `none` — when a preferred capability is set and
no agent matches. -/
def selectStandbyAgent : List PoolAgent → String → Option PoolAgent
  | [], _ => none
  | a :: rest, preferred =>
    if a.agentId == "" then selectStandbyAgent rest preferred
    else if !(preferred == "") then
      if capsMatch a.capabilities preferred then some a
      else selectStandbyAgent rest preferred
    else some a

/-- Function `try_assign_to_pool`: fail on an empty standby list, otherwise run the
selection loop; `some a` means `assign_task_to_agent` is called for `a`
(exit 0), `none` means exit 1 and the caller spawns a fresh agent. -/
def try_assign_to_pool (standby : List PoolAgent) (preferred : String) :
    Option PoolAgent :=
  match standby with
  | [] => none
  | _ => selectStandbyAgent standby preferred

/-- Outcome of `git merge "$branch"` inside `merge_approved_branches`. -/
inductive MergeOutcome where
  | success
  | conflict
deriving Repr, DecidableEq

/-- Outcome of the conflict-resolution agent inside
`resolve_merge_conflict`: whether any conflicted files remain afterwards. -/
inductive ResolveOutcome where
  | resolved
  | unresolved
deriving Repr, DecidableEq

/-- The review/merge-engine view of one task: its marker files plus its
mutable `status` field in `tasks.json`. -/
structure EngineState where
  files : TaskFiles
  jsonStatus : String
deriving Repr, DecidableEq

/-- Function `mark_task_complete`: sets the task's `tasks.json` status to
`completed` (via `sed` on the task's id line). -/
def mark_task_complete (s : EngineState) : EngineState :=
  { s with jsonStatus := "completed" }

/-- Function `mark_task_failed`: sets the task's `tasks.json` status to `failed`. -/
def mark_task_failed (s : EngineState) : EngineState :=
  { s with jsonStatus := "failed" }

/-- Function `resolve_merge_conflict` for one task: when the resolution agent leaves
no conflicted files, the resolved merge is pushed back, the `.approved` and
`.conflict_retries` files are removed and the task is marked complete;
otherwise nothing is touched ("let retry logic handle it"). -/
def resolve_merge_conflict (s : EngineState) (res : ResolveOutcome) :
    EngineState :=
  match res with
  | .resolved =>
      mark_task_complete
        { s with files := { s.files with approvedFile := false,
                                          conflictRetriesFile := none } }
  | .unresolved => s

/-- What the merge engine did to a task in one pass: whether `git merge`
was attempted, the retry-counter value at a `resolve_merge_conflict` call
(`none` if not called), and whether the task was escalated to
`needs_human_review`. -/
structure MergeAction where
  attemptedMerge : Bool
  resolutionRetries : Option Nat
  escalated : Bool
deriving Repr, DecidableEq

/-- One task's step of `merge_approved_branches`.  The loop iterates the
`*.approved` glob, so a task without an `.approved` marker is untouched.
Otherwise `git merge` is attempted; on success markers are cleared and the
task marked complete; on conflict the retry counter file is incremented,
and either the task is escalated (counter above `MAX_CONFLICT_RETRIES`:
`.approved` renamed to `.needs_human_review`, counter file removed) or
`resolve_merge_conflict` runs. -/
def merge_approved_branch (maxRetries : Nat) (s : EngineState)
    (merge : MergeOutcome) (res : ResolveOutcome) :
    EngineState × MergeAction :=
  if !s.files.approvedFile then (s, ⟨false, none, false⟩)
  else
    match merge with
    | .success =>
        (mark_task_complete
          { s with files := { s.files with approvedFile := false,
                                            conflictRetriesFile := none } },
         ⟨true, none, false⟩)
    | .conflict =>
        let retries := s.files.conflictRetriesFile.getD 0 + 1
        let s1 : EngineState :=
          { s with files := { s.files with conflictRetriesFile := some retries } }
        if maxRetries < retries then
          ({ s1 with files := { s1.files with approvedFile := false,
                                               needsHumanReviewFile := true,
                                               conflictRetriesFile := none } },
           ⟨true, none, true⟩)
        else
          (resolve_merge_conflict s1 res, ⟨true, some retries, false⟩)

/-- One task's step of `pm_review_completed`.  The loop iterates the
`*.completed` glob, so a task without a `.completed` marker is untouched.
The decision string is what the `grep -o '"decision"...' | cut -d'"' -f4`
pipeline extracts from the PM output (empty when nothing matched):
`APPROVE` renames the marker to `.approved`; `REJECT` deletes the marker
and marks the task failed; anything else defaults to approve. -/
def pm_review_task (decision : String) (s : EngineState) : EngineState :=
  if !s.files.completedFile then s
  else if decision == "APPROVE" then
    { s with files := { s.files with completedFile := false,
                                      approvedFile := true } }
  else if decision == "REJECT" then
    mark_task_failed { s with files := { s.files with completedFile := false } }
  else
    { s with files := { s.files with completedFile := false,
                                      approvedFile := true } }

/-- Result of routing one outbox message: the sequence of status values
written to it by `update_message_status`, in order, and the answers
appended to the inbox by `send_response`. -/
structure RouteResult where
  statusUpdates : List String
  responsesSent : List String
deriving Repr, DecidableEq

/-- Function `process_message` on one pending outbox message, given its `to` and
`type` fields.  It first marks the message `processing`; a `pm`-addressed
notification is logged and marked `delivered`; any other `pm`-addressed
message goes through `handle_pm_message`, which (in both its ANSWER and
ESCALATE branches) appends exactly one answer — `pmAnswer` — via
`send_response`, which marks the message `responded`; any non-`pm`
destination is marked `rejected` with no response. -/
def process_message (dest msgType pmAnswer : String) : RouteResult :=
  if dest == "pm" then
    if msgType == "notification" then ⟨["processing", "delivered"], []⟩
    else ⟨["processing", "responded"], [pmAnswer]⟩
  else ⟨["processing", "rejected"], []⟩

/-- Function `handle_task_completion` on one pending `task_complete` outbox message:
it logs and sets the message's status to `handled`, nothing else. -/
def handle_task_completion (_msgId _agentId _taskId _summary : String) :
    RouteResult :=
  ⟨["handled"], []⟩

/-- Modelled from the spec (claim C6): the status set named by the claim. -/
def claimedStatusSet : List String :=
  ["pending", "processing", "delivered", "responded", "rejected"]

/-- Modelled from the spec (claim C6): the claimed one-directional order
`pending → processing → (delivered | responded)` or `pending → rejected`. -/
def claimedStatusStep (a b : String) : Bool :=
  (a == "pending" && (b == "processing" || b == "rejected")) ||
    (a == "processing" && (b == "delivered" || b == "responded"))

/-- Rank of a message status in the code's one-directional life cycle:
`pending` before `processing` before the terminal statuses. -/
def statusRank (s : String) : Nat :=
  if s == "pending" then 0 else if s == "processing" then 1 else 2

/-- The status transitions the message-processing code actually performs:
`pending → processing` (entry of `process_message`),
`processing → delivered | responded | rejected` (its three exits), and
`pending → handled` (`handle_task_completion`). -/
def codeStatusStep (a b : String) : Bool :=
  (a == "pending" && (b == "processing" || b == "handled")) ||
    (a == "processing" &&
      (b == "delivered" || b == "responded" || b == "rejected"))

/-- One inbox entry (a reply), as appended by `send_response` or the
web-UI respond route: correlated to an outbox message by `replyTo`. -/
structure InboxMsg where
  id : String
  replyTo : String
  fromSender : String
  answer : String
deriving Repr, DecidableEq

/-- One outbox entry as built by the messaging server's `sendMessage`
(`dest` is the JSON `to` field). -/
structure OutboxMsg where
  id : String
  fromAgent : String
  task : String
  dest : String
  question : String
  priority : String
  timestamp : String
  status : String
deriving Repr, DecidableEq

/-- Function `sendMessage` of the messaging server: append a message with
`status: "pending"` to the outbox and return its id (the fresh UUID and
timestamp are passed in explicitly). -/
def sendMessage (outbox : List OutboxMsg)
    (newId agentId taskId dest question priority timestamp : String) :
    List OutboxMsg × String :=
  (outbox ++ [⟨newId, agentId, taskId, dest, question, priority, timestamp,
    "pending"⟩], newId)

/-- Function `checkResponse`: first inbox entry whose `replyTo` equals the id. -/
def checkResponse (inbox : List InboxMsg) (messageId : String) :
    Option InboxMsg :=
  inbox.find? (fun m => m.replyTo == messageId)

/-- The server's poll interval: 1000 ms. -/
def pollIntervalMs : Nat := 1000

/-- The `ask_pm` handler's timeout: 300000 ms (5 minutes). -/
def askPmTimeoutMs : Nat := 300000

/-- Number of polls of the `waitForResponse` loop: the body runs at elapsed
times `k * pollIntervalMs` for every `k` with
`k * pollIntervalMs < timeoutMs`, i.e. `⌈timeoutMs / pollIntervalMs⌉`
times (one check per sleep, the first immediately). -/
def numPolls (timeoutMs : Nat) : Nat :=
  (timeoutMs + pollIntervalMs - 1) / pollIntervalMs

/-- Function `waitForResponse`: poll the inbox (snapshot `inboxAt k` at the k-th
poll) until a correlated reply appears or the deadline passes; `none` on
timeout. -/
def waitForResponse (inboxAt : Nat → List InboxMsg) (messageId : String)
    (timeoutMs : Nat) : Option InboxMsg :=
  (List.range (numPolls timeoutMs)).findSome?
    (fun k => checkResponse (inboxAt k) messageId)

/-- The literal text the `ask_pm` handler returns on timeout. -/
def noResponseText : String :=
  "No response received from PM within timeout. Proceeding with best judgment."

/-- The `ask_pm` tool handler: append a `pending` question addressed to
`pm` to the outbox, wait up to 5 minutes for a correlated reply, and
return either the PM's answer or the explicit no-response text.
(`question` stands for the already-assembled full question.) -/
def ask_pm (outbox : List OutboxMsg) (inboxAt : Nat → List InboxMsg)
    (newId agentId taskId question priority timestamp : String) :
    List OutboxMsg × String :=
  let sent := sendMessage outbox newId agentId taskId "pm" question priority
    timestamp
  match waitForResponse inboxAt sent.2 askPmTimeoutMs with
  | some r => (sent.1, "PM Response:\n" ++ r.answer)
  | none => (sent.1, noResponseText)

/-- A minimal JSON value, for the mailbox documents. -/
inductive Json where
  | null
  | bool (b : Bool)
  | num (n : Int)
  | str (s : String)
  | arr (elems : List Json)
  | obj (fields : List (String × Json))

/-- What a read of a mailbox file can encounter: the file is missing,
its contents fail `JSON.parse`, or they parse to a document. -/
inductive FileRead where
  | missing
  | malformed
  | parsed (doc : Json)

/-- The default document of the messaging server's `readJsonFile`:
`{ messages: [] }`. -/
def emptyMessagesDoc : Json := .obj [("messages", .arr [])]

/-- Function `readJsonFile` of the messaging MCP server: parse the file inside a
`try`; a missing file falls through and a parse failure is caught, both
returning `{ messages: [] }`. -/
def readJsonFile : FileRead → Json
  | .parsed doc => doc
  | _ => emptyMessagesDoc

/-- Function `readJsonFile` of the web-UI API routes: same guarded read, but the
fallthrough/catch default is `null`. -/
def readJsonFile_webui : FileRead → Option Json
  | .parsed doc => some doc
  | _ => none

/-- How the web-UI routes use their reader on mailbox documents:
`readJsonFile(outboxFile) || { messages: [] }`. -/
def readMailboxOrDefault (c : FileRead) : Json :=
  (readJsonFile_webui c).getD emptyMessagesDoc

/-- One assignment record as created by `assign_task_to_agent`;
`acceptedAt` is stamped by `acceptAssignment`. -/
structure Assignment where
  id : String
  agentId : String
  taskId : String
  branch : String
  type : String
  description : String
  assignedAt : String
  acceptedAt : Option String
deriving Repr, DecidableEq

/-- The `assignments.json` document.  Fields are optional because
`readJsonFile` can return `{ messages: [] }` for a missing file, in which
case `pending`/`accepted` are absent and the JS defaults them to `[]`. -/
structure AssignmentsDoc where
  pending : Option (List Assignment)
  accepted : Option (List Assignment)
  completed : Option (List Assignment)
deriving Repr, DecidableEq

/-- The `findIndex` plus `splice(idx, 1)` step on the pending list: remove the first
assignment with the given id, returning it and the remaining list. -/
def spliceById : List Assignment → String → Option (Assignment × List Assignment)
  | [], _ => none
  | a :: rest, assignmentId =>
    if a.id == assignmentId then some (a, rest)
    else
      match spliceById rest assignmentId with
      | some (b, rest1) => some (b, a :: rest1)
      | none => none

/-- Function `acceptAssignment`: default the `pending`/`accepted` fields, look the
id up in `pending`; when found, splice it out, stamp `acceptedAt`, push it
onto `accepted` and write the document back, returning the assignment;
when not found, return `null` without writing (the in-memory defaults are
discarded, so the stored document is unchanged). -/
def acceptAssignment (doc : AssignmentsDoc) (assignmentId nowIso : String) :
    AssignmentsDoc × Option Assignment :=
  match spliceById (doc.pending.getD []) assignmentId with
  | some (a, pendingRest) =>
      let accepted := { a with acceptedAt := some nowIso }
      (⟨some pendingRest, some ((doc.accepted.getD []) ++ [accepted]),
        doc.completed⟩, some accepted)
  | none => (doc, none)

/-! Concrete scenarios used by the claim theorems. -/

/-- Scenario task with no dependencies. -/
def tDep : OrchTask :=
  ⟨"task-1", "implement", "feature/a", "claude", "build A", [], ""⟩

/-- Scenario task depending on `task-1`. -/
def tDown : OrchTask :=
  ⟨"task-2", "implement", "feature/b", "codex", "build B", ["task-1"], ""⟩

/-- Marker state while the agent for `task-1` is still running. -/
def filesWhileRunning : MarkerState := fun taskId =>
  if taskId == "task-1" then agentStartTask TaskFiles.none else TaskFiles.none

/-- Marker state immediately after the `task-1` agent process exits —
`dispatch_single_agent` has written `task-1.completed` — with no PM review,
approval or merge having happened. -/
def filesAfterAgentExit : MarkerState := fun taskId =>
  if taskId == "task-1" then agentFinishTask (agentStartTask TaskFiles.none)
  else TaskFiles.none

/-- Claim C1: the spec says a dependency is satisfied only by PM
approval/merge, never by raw agent completion, and `is_task_complete`'s own
docstring says "merged or approved"; but the `.completed` marker that
`dispatch_single_agent` writes at raw agent exit already satisfies
`is_task_complete`, so the downstream task `task-2` is classified ready
with `task-1` neither approved nor merged. -/
theorem completed_marker_alone_satisfies_dependency :
    (filesAfterAgentExit "task-1").approvedFile = false ∧
    (filesAfterAgentExit "task-1").mergedFile = false ∧
    is_task_complete filesAfterAgentExit "task-1" = true ∧
    taskReady filesWhileRunning tDown = false ∧
    taskReady filesAfterAgentExit tDown = true ∧
    readyTasks [tDep, tDown] filesAfterAgentExit = [tDown] := by
  decide

/-- Independent ready task used in the dispatch-bound counterexample. -/
def tFree : OrchTask :=
  ⟨"task-3", "implement", "feature/c", "gemini", "build C", [], ""⟩

/-- Claim C2 counterexample: with `MAX_PARALLEL_AGENTS = 1`, one agent
already running (`task-1` holds a `.status` marker) and one ready task,
the dispatch cycle still dispatches a new agent — its limit check counts
only `task_count + assigned_to_pool`, not running agents — so total active
agents reach 2, exceeding the bound the claim states. -/
theorem dispatch_bound_ignores_running_agents :
    (runningTasks [tDep, tFree] filesWhileRunning).length = 1 ∧
    dispatch_agents_counts [tDep, tFree] filesWhileRunning
      (fun _ => false) 1 = (1, 0) ∧
    ¬((runningTasks [tDep, tFree] filesWhileRunning).length +
        ((dispatch_agents_counts [tDep, tFree] filesWhileRunning
          (fun _ => false) 1).1 +
         (dispatch_agents_counts [tDep, tFree] filesWhileRunning
          (fun _ => false) 1).2) ≤ 1) := by
  decide

/-- Unfolding of the dispatch loop on one line: pick the counter to bump
by the pool outcome, then stop or continue by the limit check. -/
theorem dispatchLoop_cons (poolOk : OrchTask → Bool)
    (maxAgents : Nat) (t : OrchTask) (rest : List OrchTask)
    (taskCount assignedToPool : Nat) :
    dispatchLoop poolOk maxAgents (t :: rest) taskCount assignedToPool =
      if !(t.id == "") && !(t.agent == "") then
        if poolOk t then
          if maxAgents ≤ taskCount + (assignedToPool + 1) then
            (taskCount, assignedToPool + 1)
          else dispatchLoop poolOk maxAgents rest taskCount (assignedToPool + 1)
        else
          if maxAgents ≤ (taskCount + 1) + assignedToPool then
            (taskCount + 1, assignedToPool)
          else dispatchLoop poolOk maxAgents rest (taskCount + 1) assignedToPool
      else dispatchLoop poolOk maxAgents rest taskCount assignedToPool := by
  by_cases hp : poolOk t = true <;> simp [dispatchLoop, hp]

/-- The dispatch loop keeps `task_count + assigned_to_pool` at or below
`maxAgents` whenever it starts strictly below it: the post-dispatch check
breaks out as soon as the sum reaches the limit. -/
theorem dispatchLoop_bounded (poolOk : OrchTask → Bool) (maxAgents : Nat) :
    ∀ (entries : List OrchTask) (taskCount assignedToPool : Nat),
      taskCount + assignedToPool < maxAgents →
      (dispatchLoop poolOk maxAgents entries taskCount assignedToPool).1 +
        (dispatchLoop poolOk maxAgents entries taskCount assignedToPool).2 ≤
        maxAgents := by
  intro entries
  induction entries with
  | nil =>
      intro taskCount assignedToPool h
      simpa [dispatchLoop] using Nat.le_of_lt h
  | cons t rest ih =>
      intro taskCount assignedToPool h
      rw [dispatchLoop_cons]
      by_cases hq : (!(t.id == "") && !(t.agent == "")) = true
      · rw [if_pos hq]
        by_cases hp : poolOk t = true
        · rw [if_pos hp]
          by_cases hb : maxAgents ≤ taskCount + (assignedToPool + 1)
          · rw [if_pos hb]
            show taskCount + (assignedToPool + 1) ≤ maxAgents
            omega
          · rw [if_neg hb]
            exact ih taskCount (assignedToPool + 1) (by omega)
        · rw [if_neg hp]
          by_cases hb : maxAgents ≤ (taskCount + 1) + assignedToPool
          · rw [if_pos hb]
            show (taskCount + 1) + assignedToPool ≤ maxAgents
            omega
          · rw [if_neg hb]
            exact ih (taskCount + 1) assignedToPool (by omega)
      · rw [if_neg hq]
        exact ih taskCount assignedToPool h

/-- Claim C2 amended: within one dispatch cycle the number of newly
dispatched agents — fresh spawns plus pool assignments — never exceeds
`MAX_PARALLEL_AGENTS` (for any positive limit); already-running agents are
not part of the check, so only the per-cycle dispatch count is bounded. -/
theorem dispatch_cycle_new_agents_le_max (tasks : List OrchTask)
    (files : MarkerState) (poolOk : OrchTask → Bool) (maxAgents : Nat)
    (h : 1 ≤ maxAgents) :
    (dispatch_agents_counts tasks files poolOk maxAgents).1 +
      (dispatch_agents_counts tasks files poolOk maxAgents).2 ≤ maxAgents :=
  dispatchLoop_bounded poolOk maxAgents (readyTasks tasks files) 0 0
    (by omega)

/-- Witness for the amended dispatch bound at a concrete cycle: two ready
tasks, limit 1. -/
theorem dispatch_cycle_new_agents_le_max_witness :
    1 ≤ 1 ∧
    (dispatch_agents_counts [tDep, tFree] (fun _ => TaskFiles.none)
        (fun _ => false) 1).1 +
      (dispatch_agents_counts [tDep, tFree] (fun _ => TaskFiles.none)
        (fun _ => false) 1).2 ≤ 1 :=
  ⟨by decide,
   dispatch_cycle_new_agents_le_max [tDep, tFree] (fun _ => TaskFiles.none)
     (fun _ => false) 1 (by decide)⟩

/-- A standby pool with a single agent that advertises testing
capabilities only. -/
def standbyTesting : List PoolAgent :=
  [⟨"gemini-task-5", "gemini", ["testing", "visual-qa"]⟩]

/-- Claim C3 counterexample: with a non-empty standby pool whose only
agent does not match the preferred capability `coding`,
`try_assign_to_pool` selects nobody (returns failure) — there is no
fall-back to "any standby agent" when a preferred capability is set. -/
theorem unmatched_capability_assigns_no_agent :
    standbyTesting ≠ [] ∧
    capsMatch (⟨"gemini-task-5", "gemini", ["testing", "visual-qa"]⟩ :
      PoolAgent).capabilities "coding" = false ∧
    try_assign_to_pool standbyTesting "coding" = none := by
  decide

/-- With a non-empty preferred capability, the selection loop returns
`none` when no standby agent's capabilities match. -/
theorem selectStandbyAgent_none_of_no_match (preferred : String)
    (hp : ¬(preferred = "")) :
    ∀ standby : List PoolAgent,
      (∀ a ∈ standby, capsMatch a.capabilities preferred = false) →
      selectStandbyAgent standby preferred = none := by
  have hp2 : (preferred == "") = false := by
    simpa using hp
  intro standby
  induction standby with
  | nil => intro _; rfl
  | cons a rest ih =>
      intro hall
      simp only [selectStandbyAgent, hp2]
      by_cases ha : (a.agentId == "") = true
      · rw [if_pos ha]
        exact ih fun b hb => hall b (List.mem_cons_of_mem a hb)
      · rw [if_neg ha]
        simp only [Bool.not_false, if_true]
        rw [if_neg (by simp [hall a (List.mem_cons_self a rest)])]
        exact ih fun b hb => hall b (List.mem_cons_of_mem a hb)

/-- With a non-empty preferred capability, any agent the selection loop
returns is a member of the standby list whose capabilities match. -/
theorem selectStandbyAgent_some_matches (preferred : String)
    (hp : ¬(preferred = "")) :
    ∀ (standby : List PoolAgent) (a : PoolAgent),
      selectStandbyAgent standby preferred = some a →
      a ∈ standby ∧ capsMatch a.capabilities preferred = true := by
  have hp2 : (preferred == "") = false := by
    simpa using hp
  intro standby
  induction standby with
  | nil => intro a h; cases h
  | cons b rest ih =>
      intro a h
      simp only [selectStandbyAgent, hp2] at h
      by_cases hb : (b.agentId == "") = true
      · rw [if_pos hb] at h
        obtain ⟨hmem, hcaps⟩ := ih a h
        exact ⟨List.mem_cons_of_mem b hmem, hcaps⟩
      · rw [if_neg hb] at h
        simp only [Bool.not_false, if_true] at h
        by_cases hm : capsMatch b.capabilities preferred = true
        · rw [if_pos hm] at h
          cases h
          exact ⟨List.mem_cons_self b rest, hm⟩
        · rw [if_neg hm] at h
          obtain ⟨hmem, hcaps⟩ := ih a h
          exact ⟨List.mem_cons_of_mem b hmem, hcaps⟩

/-- With a non-empty preferred capability, the selection loop returns
exactly the first standby line whose agent id is non-empty and whose
capabilities match — `List.find?` over the standby list. -/
theorem selectStandbyAgent_eq_find (preferred : String)
    (hp : ¬(preferred = "")) :
    ∀ standby : List PoolAgent,
      selectStandbyAgent standby preferred =
        standby.find? (fun a =>
          !(a.agentId == "") && capsMatch a.capabilities preferred) := by
  have hp2 : (preferred == "") = false := by
    simpa using hp
  intro standby
  induction standby with
  | nil => rfl
  | cons a rest ih =>
      by_cases ha : (a.agentId == "") = true
      · simp only [selectStandbyAgent, if_pos ha, List.find?, ha,
          Bool.not_true, Bool.false_and]
        exact ih
      · have ha2 : (a.agentId == "") = false := by
          simpa using ha
        by_cases hm : capsMatch a.capabilities preferred = true
        · simp [selectStandbyAgent, ha2, hp2, hm, List.find?]
        · have hm2 : capsMatch a.capabilities preferred = false := by
            simpa using hm
          simp only [selectStandbyAgent, ha2, hp2, hm2, List.find?,
            Bool.not_false, Bool.true_and, Bool.false_eq_true, if_false]
          exact ih

/-- Claim C3 amended: when the task declares a (non-empty) preferred
capability, `try_assign_to_pool` assigns exactly the first standby agent
(with a non-empty id) whose advertised capabilities contain the preferred
capability as a case-insensitive substring, and when no standby agent
matches it assigns nobody — returning failure so that the dispatcher
spawns a fresh agent — rather than falling back to an arbitrary standby
agent. -/
theorem try_assign_preferred_capability (standby : List PoolAgent)
    (preferred : String) (hp : ¬(preferred = "")) :
    try_assign_to_pool standby preferred =
      standby.find? (fun a =>
        !(a.agentId == "") && capsMatch a.capabilities preferred) ∧
    ((∀ a ∈ standby, capsMatch a.capabilities preferred = false) →
      try_assign_to_pool standby preferred = none) ∧
    (∀ a, try_assign_to_pool standby preferred = some a →
      a ∈ standby ∧ capsMatch a.capabilities preferred = true) := by
  refine ⟨?_, ?_, ?_⟩
  · cases standby with
    | nil => rfl
    | cons b rest =>
        exact selectStandbyAgent_eq_find preferred hp (b :: rest)
  · intro hall
    cases standby with
    | nil => rfl
    | cons b rest =>
        exact selectStandbyAgent_none_of_no_match preferred hp _ hall
  · intro a h
    cases standby with
    | nil => cases h
    | cons b rest =>
        exact selectStandbyAgent_some_matches preferred hp _ a h

/-- A standby pool whose first agent does not match `coding`, while its
second and third agents both do. -/
def standbyMixed : List PoolAgent :=
  [⟨"gemini-task-5", "gemini", ["testing", "visual-qa"]⟩,
   ⟨"claude-task-2", "claude", ["coding", "research"]⟩,
   ⟨"codex-task-3", "codex", ["coding"]⟩]

/-- Witness for the amended capability selection, exercising both
branches: on the mixed pool the first matching standby agent
(`claude-task-2`, not the later `codex-task-3`) is assigned, and on the
unmatched pool from the counterexample nobody is assigned. -/
theorem try_assign_preferred_capability_witness :
    ¬(("coding" : String) = "") ∧
    try_assign_to_pool standbyMixed "coding" =
      some ⟨"claude-task-2", "claude", ["coding", "research"]⟩ ∧
    try_assign_to_pool standbyTesting "coding" = none :=
  ⟨by decide,
   (try_assign_preferred_capability standbyMixed "coding"
      (by decide)).1.trans (by decide),
   (try_assign_preferred_capability standbyTesting "coding" (by decide)).2.1
     (by decide)⟩

/-- Merge-engine state of `task-1` just before its third conflicting merge
attempt: `.approved` present, two recorded conflict retries, `tasks.json`
status untouched. -/
def approvedTwiceRetried : EngineState :=
  ⟨{ TaskFiles.none with approvedFile := true,
                          conflictRetriesFile := some 2 }, ""⟩

/-- The engine step on that state when the merge conflicts again
(`MAX_CONFLICT_RETRIES = 2`). -/
def escalationStep : EngineState × MergeAction :=
  merge_approved_branch 2 approvedTwiceRetried .conflict .unresolved

/-- The `STATUS_DIR` state as the scheduler sees it right after the escalation. -/
def filesAfterEscalation : MarkerState := fun taskId =>
  if taskId == "task-1" then escalationStep.1.files else TaskFiles.none

/-- The same task after the scheduler re-dispatches it: a fresh agent runs
and exits, the PM approves the rerun, and the merge engine steps again on
a conflicting merge. -/
def remergeStep : EngineState × MergeAction :=
  merge_approved_branch 2
    (pm_review_task "APPROVE"
      ⟨agentFinishTask (agentStartTask escalationStep.1.files),
       escalationStep.1.jsonStatus⟩)
    .conflict .unresolved

/-- Claim C4: exceeding the retry bound does escalate — the counter is
cleared, `.approved` becomes `.needs_human_review`, no resolution is
attempted, and the merge engine alone will not touch the task again — but
`needs_human_review` is not terminal: no scheduler check consults the
marker, so the very next dispatch cycle classifies the task ready again,
and after a rerun and PM approval the merge engine attempts an automated
merge and conflict resolution for it once more, with a reset retry
counter. -/
theorem needs_human_review_not_terminal :
    escalationStep.2.escalated = true ∧
    escalationStep.1.files.needsHumanReviewFile = true ∧
    escalationStep.1.files.approvedFile = false ∧
    escalationStep.1.files.conflictRetriesFile = none ∧
    (merge_approved_branch 2 escalationStep.1 .conflict
      .unresolved).2.attemptedMerge = false ∧
    taskReady filesAfterEscalation tDep = true ∧
    remergeStep.2.attemptedMerge = true ∧
    remergeStep.2.resolutionRetries = some 1 := by
  decide

/-- Claim C5: for a task under PM review (a `.completed` marker exists),
an `APPROVE` decision converts the marker to `.approved`, a `REJECT`
decision removes the marker and marks the task failed, and any other
decision string — including the empty string the parsing pipeline yields
on unparseable PM output — defaults to approval. -/
theorem pm_review_decision_policy (s : EngineState) (decision : String)
    (hc : s.files.completedFile = true) :
    (decision = "APPROVE" →
      (pm_review_task decision s).files.approvedFile = true ∧
      (pm_review_task decision s).files.completedFile = false ∧
      (pm_review_task decision s).jsonStatus = s.jsonStatus) ∧
    (decision = "REJECT" →
      (pm_review_task decision s).files.completedFile = false ∧
      (pm_review_task decision s).files.approvedFile = s.files.approvedFile ∧
      (pm_review_task decision s).jsonStatus = "failed") ∧
    (¬(decision = "APPROVE") → ¬(decision = "REJECT") →
      (pm_review_task decision s).files.approvedFile = true ∧
      (pm_review_task decision s).files.completedFile = false ∧
      (pm_review_task decision s).jsonStatus = s.jsonStatus) := by
  refine ⟨?_, ?_, ?_⟩
  · intro h
    subst h
    simp [pm_review_task, hc]
  · intro h
    subst h
    simp [pm_review_task, hc, mark_task_failed]
  · intro h1 h2
    have b1 : (decision == "APPROVE") = false := by
      simpa using h1
    have b2 : (decision == "REJECT") = false := by
      simpa using h2
    simp [pm_review_task, hc, b1, b2]

/-- Witness for the review policy: a `.completed` task whose PM review
output parses to garbage is defaulted to approved. -/
theorem pm_review_decision_policy_witness :
    (⟨{ TaskFiles.none with completedFile := true }, ""⟩ :
      EngineState).files.completedFile = true ∧
    (pm_review_task "maybe?"
      ⟨{ TaskFiles.none with completedFile := true }, ""⟩).files.approvedFile
      = true :=
  ⟨rfl,
   ((pm_review_decision_policy
      ⟨{ TaskFiles.none with completedFile := true }, ""⟩ "maybe?" rfl).2.2
      (by decide) (by decide)).1⟩

/-- Claim C6 counterexample: `handle_task_completion` moves a pending
`task_complete` outbox message straight to status `handled` — a value
outside the claimed status set, reached by a transition outside the
claimed order (and the router's rejection path passes through
`processing` rather than going directly from `pending`). -/
theorem handled_status_outside_claimed_order :
    (handle_task_completion "m1" "claude-task-1" "task-1"
      "done").statusUpdates = ["handled"] ∧
    claimedStatusStep "pending" "handled" = false ∧
    "handled" ∉ claimedStatusSet ∧
    (process_message "nowhere" "question" "a").statusUpdates =
      ["processing", "rejected"] ∧
    claimedStatusStep "processing" "rejected" = false := by
  decide

/-- Claim C6 amended: every status update the message-processing
operations perform is forward-only — `process_message` drives a pending
message through `processing` to exactly one of `delivered`, `responded`
or `rejected`, and `handle_task_completion` moves a pending
`task_complete` message straight to `handled`; each consecutive update is
a code transition that strictly increases the status rank, so no message
status ever moves backward. -/
theorem message_status_updates_forward_only
    (dest msgType pmAnswer msgId agentId taskId summary : String) :
    List.Chain
      (fun a b => codeStatusStep a b = true ∧ statusRank a < statusRank b)
      "pending" (process_message dest msgType pmAnswer).statusUpdates ∧
    List.Chain
      (fun a b => codeStatusStep a b = true ∧ statusRank a < statusRank b)
      "pending"
      (handle_task_completion msgId agentId taskId summary).statusUpdates := by
  constructor
  · by_cases hd : (dest == "pm") = true
    · by_cases ht : (msgType == "notification") = true
      · simp only [process_message, hd, ht, if_true]
        exact .cons ⟨by decide, by decide⟩ (.cons ⟨by decide, by decide⟩ .nil)
      · simp only [process_message, hd, if_true, if_neg ht]
        exact .cons ⟨by decide, by decide⟩ (.cons ⟨by decide, by decide⟩ .nil)
    · simp only [process_message, if_neg hd]
      exact .cons ⟨by decide, by decide⟩ (.cons ⟨by decide, by decide⟩ .nil)
  · simp only [handle_task_completion]
    exact .cons ⟨by decide, by decide⟩ .nil

/-- Claim C7: the router rejects any pending message whose destination is
not `pm` — its final status is `rejected` and no response is produced —
and conversely a message that ends `delivered` or `responded` was
addressed to `pm`. -/
theorem non_pm_destination_rejected (dest msgType pmAnswer : String) :
    (¬(dest = "pm") →
      (process_message dest msgType pmAnswer).statusUpdates.getLast? =
        some "rejected" ∧
      (process_message dest msgType pmAnswer).responsesSent = []) ∧
    (∀ s, (process_message dest msgType pmAnswer).statusUpdates.getLast? =
        some s → (s = "delivered" ∨ s = "responded") → dest = "pm") := by
  constructor
  · intro h
    have hb : (dest == "pm") = false := by
      simpa using h
    simp [process_message, hb]
  · intro s hs hdr
    by_cases hd : (dest = "pm")
    · exact hd
    · have hb : (dest == "pm") = false := by
        simpa using hd
      simp [process_message, hb] at hs
      rcases hdr with h | h <;> simp [← hs] at h

/-- Witness for the routing rule at a concrete non-`pm` destination. -/
theorem non_pm_destination_rejected_witness :
    (process_message "agent-2" "question" "x").statusUpdates.getLast? =
      some "rejected" ∧
    (process_message "agent-2" "question" "x").responsesSent = [] :=
  (non_pm_destination_rejected "agent-2" "question" "x").1 (by decide)

/-- Claim C8: `ask_pm` appends one `pending` message addressed to `pm` to
the outbox; when no inbox snapshot within the polling window holds a reply
correlated by `replyTo`, it returns the deterministic no-response text, and
the window is exactly 300 one-second polls — the 5-minute timeout — so the
call cannot block past the deadline. -/
theorem ask_pm_timeout_behavior (outbox : List OutboxMsg)
    (inboxAt : Nat → List InboxMsg)
    (newId agentId taskId question priority timestamp : String)
    (h : ∀ k, k < numPolls askPmTimeoutMs →
      checkResponse (inboxAt k) newId = none) :
    (ask_pm outbox inboxAt newId agentId taskId question priority
        timestamp).1 =
      outbox ++ [⟨newId, agentId, taskId, "pm", question, priority,
        timestamp, "pending"⟩] ∧
    (ask_pm outbox inboxAt newId agentId taskId question priority
        timestamp).2 = noResponseText ∧
    numPolls askPmTimeoutMs = 300 := by
  have hw : waitForResponse inboxAt newId askPmTimeoutMs = none := by
    rw [waitForResponse]
    exact List.findSome?_eq_none_iff.mpr
      (fun k hk => h k (List.mem_range.mp hk))
  refine ⟨?_, ?_, by decide⟩ <;> simp [ask_pm, sendMessage, hw]

/-- Witness for the `ask_pm` timeout at a concrete call with an inbox that
never holds a correlated reply. -/
theorem ask_pm_timeout_behavior_witness :
    (ask_pm [] (fun _ => []) "msg-1" "claude-task-1" "task-1"
      "Which database should I use?" "normal" "t0").2 = noResponseText :=
  (ask_pm_timeout_behavior [] (fun _ => []) "msg-1" "claude-task-1"
    "task-1" "Which database should I use?" "normal" "t0"
    (fun _ _ => rfl)).2.1

/-- Claim C9: mailbox reads are total — on a missing file or unparseable
contents the messaging server's reader returns the empty
`{ messages: [] }` document, the web-UI reader returns its `null` default,
which its mailbox callers coalesce to the same empty document, and neither
propagates an error. -/
theorem mailbox_read_total_default (c : FileRead)
    (h : c = FileRead.missing ∨ c = FileRead.malformed) :
    readJsonFile c = emptyMessagesDoc ∧
    readJsonFile_webui c = none ∧
    readMailboxOrDefault c = emptyMessagesDoc := by
  rcases h with h | h <;> subst h <;> exact ⟨rfl, rfl, rfl⟩

/-- Witness for the total mailbox read on malformed contents. -/
theorem mailbox_read_total_default_witness :
    readJsonFile FileRead.malformed = emptyMessagesDoc ∧
    readJsonFile_webui FileRead.malformed = none ∧
    readMailboxOrDefault FileRead.malformed = emptyMessagesDoc :=
  mailbox_read_total_default FileRead.malformed (Or.inr rfl)

/-- A splice that finds nothing corresponds to the id being absent from
the list, and conversely. -/
theorem spliceById_eq_none_iff (assignmentId : String) :
    ∀ l : List Assignment,
      spliceById l assignmentId = none ↔ ∀ a ∈ l, ¬(a.id = assignmentId) := by
  intro l
  induction l with
  | nil => simp [spliceById]
  | cons c cs ih =>
      by_cases hc : (c.id == assignmentId) = true
      · simp only [spliceById, if_pos hc]
        constructor
        · intro h; cases h
        · intro h
          exact absurd (by simpa using hc) (h c (List.mem_cons_self c cs))
      · simp only [spliceById, if_neg hc]
        cases hs : spliceById cs assignmentId with
        | none =>
            simp only [List.mem_cons]
            constructor
            · intro _ a ha
              rcases ha with ha | ha
              · subst ha; simpa using hc
              · exact (ih.mp hs) a ha
            · intro _; trivial
        | some p =>
            obtain ⟨b, rest1⟩ := p
            constructor
            · intro h; exact Option.noConfusion h
            · intro h
              have hn := ih.mpr (fun a ha => h a (List.mem_cons_of_mem c ha))
              rw [hs] at hn
              cases hn

/-- Decomposition of a successful splice: the returned assignment is the
first one carrying the id, and the remaining list is the original with
exactly that occurrence removed. -/
theorem spliceById_eq_some (assignmentId : String) :
    ∀ (l : List Assignment) (a : Assignment) (rest : List Assignment),
      spliceById l assignmentId = some (a, rest) →
      a.id = assignmentId ∧
      ∃ l1 l2, l = l1 ++ a :: l2 ∧ rest = l1 ++ l2 ∧
        ∀ b ∈ l1, ¬(b.id = assignmentId) := by
  intro l
  induction l with
  | nil => intro a rest h; cases h
  | cons c cs ih =>
      intro a rest h
      by_cases hc : (c.id == assignmentId) = true
      · rw [spliceById, if_pos hc] at h
        obtain ⟨h1, h2⟩ := Prod.mk.injEq .. ▸ Option.some.inj h
        subst h1
        subst h2
        exact ⟨by simpa using hc, [], cs, rfl, rfl, by simp⟩
      · rw [spliceById, if_neg hc] at h
        cases hs : spliceById cs assignmentId with
        | none => rw [hs] at h; cases h
        | some p =>
            obtain ⟨b, rest1⟩ := p
            rw [hs] at h
            obtain ⟨h1, h2⟩ := Prod.mk.injEq .. ▸ Option.some.inj h
            subst h1
            subst h2
            obtain ⟨hid, l1, l2, hl, hr, hnot⟩ := ih b rest1 hs
            refine ⟨hid, c :: l1, l2, by simp [hl], by simp [hr], ?_⟩
            intro x hx
            rcases List.mem_cons.mp hx with h | h
            · subst h; simpa using hc
            · exact hnot x h

/-- Claim C10: under unique assignment ids, `acceptAssignment` moves the
pending record with the given id to the accepted list stamped with
`acceptedAt`; afterwards no assignment id appears in both lists, every
other assignment in both lists is unchanged, the `completed` list is
untouched, and accepting an id not present in pending returns `null` and
leaves the stored document unchanged. -/
theorem acceptAssignment_moves_pending_to_accepted (doc : AssignmentsDoc)
    (assignmentId nowIso : String)
    (hnd : (((doc.pending.getD []).map (fun a => a.id)) ++
      ((doc.accepted.getD []).map (fun a => a.id))).Nodup) :
    (∀ x ∈ (acceptAssignment doc assignmentId nowIso).1.pending.getD [],
      ∀ y ∈ (acceptAssignment doc assignmentId nowIso).1.accepted.getD [],
        ¬(x.id = y.id)) ∧
    (acceptAssignment doc assignmentId nowIso).1.pending.getD [] =
      (doc.pending.getD []).filter (fun a => !(a.id == assignmentId)) ∧
    (acceptAssignment doc assignmentId nowIso).1.completed = doc.completed ∧
    ((∃ a ∈ doc.pending.getD [], a.id = assignmentId) →
      ∃ a ∈ doc.pending.getD [], a.id = assignmentId ∧
        (acceptAssignment doc assignmentId nowIso).1.accepted =
          some ((doc.accepted.getD []) ++
            [{ a with acceptedAt := some nowIso }]) ∧
        (acceptAssignment doc assignmentId nowIso).2 =
          some { a with acceptedAt := some nowIso }) ∧
    ((∀ a ∈ doc.pending.getD [], ¬(a.id = assignmentId)) →
      (acceptAssignment doc assignmentId nowIso).1 = doc ∧
      (acceptAssignment doc assignmentId nowIso).2 = none) := by
  obtain ⟨hpnd0, hqnd0, hdisj0⟩ := List.nodup_append.mp hnd
  cases hs : spliceById (doc.pending.getD []) assignmentId with
  | none =>
      have hnone := (spliceById_eq_none_iff assignmentId _).mp hs
      refine ⟨?_, ?_, ?_, ?_, ?_⟩
      · simp only [acceptAssignment, hs]
        intro x hx y hy heq
        exact hdisj0 (List.mem_map_of_mem _ hx)
          (heq ▸ List.mem_map_of_mem _ hy)
      · simp only [acceptAssignment, hs]
        symm
        rw [List.filter_eq_self]
        intro a ha
        simpa using hnone a ha
      · simp only [acceptAssignment, hs]
      · rintro ⟨a, ha, haid⟩
        exact absurd haid (hnone a ha)
      · intro _
        simp [acceptAssignment, hs]
  | some p =>
      obtain ⟨a, rest⟩ := p
      obtain ⟨hid, l1, l2, hl, hr, hl1⟩ :=
        spliceById_eq_some assignmentId _ a rest hs
      subst hr
      have hpnd1 : ((l1.map (fun a => a.id)) ++
          a.id :: (l2.map (fun a => a.id))).Nodup := by
        rw [hl] at hpnd0
        simpa using hpnd0
      obtain ⟨h1nd, h2nd, hdisj12⟩ := List.nodup_append.mp hpnd1
      have hanotl2 : a.id ∉ l2.map (fun a => a.id) :=
        (List.nodup_cons.mp h2nd).1
      have hmema : a ∈ doc.pending.getD [] := by
        rw [hl]
        exact List.mem_append_right _ (List.mem_cons_self a l2)
      refine ⟨?_, ?_, ?_, ?_, ?_⟩
      · simp only [acceptAssignment, hs, Option.getD_some]
        intro x hx y hy heq
        have hxp : x ∈ doc.pending.getD [] := by
          rw [hl]
          rcases List.mem_append.mp hx with h | h
          · exact List.mem_append_left _ h
          · exact List.mem_append_right _ (List.mem_cons_of_mem a h)
        rcases List.mem_append.mp hy with hy | hy
        · exact hdisj0 (List.mem_map_of_mem _ hxp)
            (heq ▸ List.mem_map_of_mem _ hy)
        · have hy2 : y = { a with acceptedAt := some nowIso } := by
            simpa using hy
          have hxa : x.id = a.id := by
            rw [heq, hy2]
          rcases List.mem_append.mp hx with h | h
          · exact hl1 x h (by rw [hxa]; exact hid)
          · exact hanotl2 (hxa ▸ List.mem_map_of_mem _ h)
      · simp only [acceptAssignment, hs, Option.getD_some]
        rw [hl, List.filter_append, List.filter_cons]
        have hfa : (!(a.id == assignmentId)) = false := by
          simp [hid]
        rw [hfa]
        simp only [Bool.false_eq_true, if_false]
        rw [List.filter_eq_self.mpr (fun b hb => by simpa using hl1 b hb),
          List.filter_eq_self.mpr ?_]
        intro b hb
        have hbm : b.id ∈ l2.map (fun a => a.id) :=
          List.mem_map_of_mem _ hb
        simp only [Bool.not_eq_true']
        rw [beq_eq_false_iff_ne]
        intro hbid
        rw [hbid, ← hid] at hbm
        exact hanotl2 hbm
      · simp only [acceptAssignment, hs]
      · intro _
        simp only [acceptAssignment, hs]
        exact ⟨a, hmema, hid, rfl, rfl⟩
      · intro hall
        exact absurd hid (hall a hmema)

/-- Witness for the assignment-acceptance invariants at a concrete
document with one pending assignment. -/
theorem acceptAssignment_moves_pending_to_accepted_witness :
    ((([⟨"as-1", "claude-task-1", "task-4", "feature/d", "implement",
        "build D", "t0", none⟩] : List Assignment).map (fun a => a.id)) ++
      (([] : List Assignment).map (fun a => a.id))).Nodup ∧
    (acceptAssignment
      ⟨some [⟨"as-1", "claude-task-1", "task-4", "feature/d", "implement",
        "build D", "t0", none⟩], some [], none⟩ "as-1" "t1").1.pending.getD []
      = ([⟨"as-1", "claude-task-1", "task-4", "feature/d", "implement",
        "build D", "t0", none⟩] : List Assignment).filter
          (fun a => !(a.id == "as-1")) :=
  ⟨by decide,
   (acceptAssignment_moves_pending_to_accepted
      ⟨some [⟨"as-1", "claude-task-1", "task-4", "feature/d", "implement",
        "build D", "t0", none⟩], some [], none⟩ "as-1" "t1" (by decide)).2.1⟩
